import Mathlib

/-!
Shallow embedding of the request-building / name-resolution / blacklist /
report-chunking core of the `python-stitch-data` client library
(`stitch_api/stitch_api.py`, `stitch_api/api/{common,public,internal}.py`).

Python values are modelled explicitly: fallible code returns
`Except PyError`, Python truthiness is spelled out (`0`, `""`, `None` are
falsy), `datetime`/`timedelta` values are minutes since an epoch as `Int`
(one day = 1440 minutes; Python's floor division on timedeltas is `Int`'s
`/`, which is Euclidean division and agrees with floor for the positive
divisor 1440), and `collections.defaultdict(list)` is an association list
whose lookup defaults to `[]`.
-/

/-- Errors raised by the embedded Python code.  `assertionError` stands for a
failed `assert` (the spec's `InvalidArgument`), `notFound` for the
`ValueError` raised by name resolution, the two blacklist constructors for
the `ValueError`s raised by `WriteBlacklist.verify_request`,
`valueErrorUnpack` for `ValueError: too many values to unpack`,
`typeError` for a call with a missing required positional argument, and
`attributeError` for an access to an attribute that does not exist. -/
inductive PyError where
  | assertionError
  | valueErrorUnpack
  | notFound (name : String)
  | sourceBlacklisted (id : Int)
  | streamBlacklisted (stream source : Int)
  | typeError
  | attributeError
deriving DecidableEq, Repr

instance {ε α : Type} [DecidableEq ε] [DecidableEq α] :
    DecidableEq (Except ε α) := fun x y =>
  match x, y with
  | Except.ok a, Except.ok b =>
      if h : a = b then Decidable.isTrue (by rw [h])
      else Decidable.isFalse (by simp [h])
  | Except.error a, Except.error b =>
      if h : a = b then Decidable.isTrue (by rw [h])
      else Decidable.isFalse (by simp [h])
  | Except.ok _, Except.error _ =>
      Decidable.isFalse (fun hc => Except.noConfusion hc)
  | Except.error _, Except.ok _ =>
      Decidable.isFalse (fun hc => Except.noConfusion hc)

/-- Helper for `pySplit`: walk the characters, cutting at the separator. -/
def splitOnCharAux (sep : Char) : List Char → List Char → List String
  | [], cur => [String.mk cur.reverse]
  | c :: rest, cur =>
      if c = sep then String.mk cur.reverse :: splitOnCharAux sep rest []
      else splitOnCharAux sep rest (c :: cur)

/-- Python `str.split(sep)` for a one-character separator: `''` splits to
`['']`, and every occurrence of the separator cuts, so `'a.b'` splits to
`['a', 'b']` and `'a.'` to `['a', '']`. -/
def pySplit (s : String) (sep : Char) : List String :=
  splitOnCharAux sep s.data []

/-- Python truthiness of an optional string (`None` and `''` are falsy). -/
def pyTruthyStrOpt : Option String → Bool
  | Option.none => false
  | Option.some s => decide (s ≠ "")

/-- Python truthiness of an optional integer (`None` and `0` are falsy). -/
def pyTruthyIntOpt : Option Int → Bool
  | Option.none => false
  | Option.some n => decide (n ≠ 0)

/-- Payload values: `vnone` is Python `None`, `vstr` a string, `vint` an int. -/
inductive PyVal where
  | vnone
  | vstr (s : String)
  | vint (n : Int)
deriving DecidableEq, Repr

/-- `api.common.BaseStitchApi.SendRequest`, the request-descriptor triple.
The payload is kept as the structured mapping handed to `json.dumps`. -/
structure SendRequest where
  endpoint : String
  method : String
  payload : Option (List (String × PyVal))
deriving DecidableEq, Repr

/-- `WriteBlacklist.__init__`: blacklisted source ids, and the
`defaultdict(list)` built by `_parse_blacklist_config` mapping a source id
to the list of its blacklisted stream ids. -/
structure WriteBlacklist where
  source_entries : List Int
  stream_entries : List (Int × List Int)
deriving DecidableEq, Repr

/-- `stream_entries[k]` on the `defaultdict(list)`: the stored list, or `[]`
when the key is missing. -/
def lookupDefault (m : List (Int × List Int)) (k : Int) : List Int :=
  match m.find? (fun p => p.1 = k) with
  | Option.some p => p.2
  | Option.none => []

/-- `k in stream_entries`: Python `in` on a dict tests key membership. -/
def memKeys (m : List (Int × List Int)) (k : Int) : Bool :=
  m.any (fun p => p.1 = k)

/-- `WriteBlacklist.verify_request` (stitch_api.py lines 49-55): raise if
`source_id in self.source_entries`; otherwise, if
`stream_id in self.stream_entries` (key membership) and
`stream_id in self.stream_entries[source_id]`, raise. -/
def verify_request (bl : WriteBlacklist) (source_id stream_id : Int) :
    Except PyError Unit :=
  if source_id ∈ bl.source_entries then
    Except.error (PyError.sourceBlacklisted source_id)
  else if memKeys bl.stream_entries stream_id then
    if stream_id ∈ lookupDefault bl.stream_entries source_id then
      Except.error (PyError.streamBlacklisted stream_id source_id)
    else
      Except.ok ()
  else
    Except.ok ()

/-- `StitchAPI._execute_request` (lines 113-125), restricted to what it
observably does with the blacklist: when a blacklist is configured and the
call is not marked read-only, run `verify_request` first; only then build
the descriptor with `api_call` and dispatch it.  The returned descriptor
stands for the HTTP request that is sent. -/
def execute_request (bl : Option WriteBlacklist) (read_only : Bool)
    (source_id stream_id : Int) (api_call : Int → Int → SendRequest) :
    Except PyError SendRequest :=
  match bl with
  | Option.some b =>
      if read_only then
        Except.ok (api_call source_id stream_id)
      else
        match verify_request b source_id stream_id with
        | Except.error e => Except.error e
        | Except.ok _ => Except.ok (api_call source_id stream_id)
  | Option.none => Except.ok (api_call source_id stream_id)

/-- Client login state: `self._logged_in_internal`, set to `False` in
`StitchAPI.__init__` (line 82) and never assigned anywhere else. -/
structure ClientState where
  logged_in_internal : Bool
deriving DecidableEq, Repr

/-- `StitchAPI.__init__`: `self._logged_in_internal = False`. -/
def initial_client_state : ClientState := ⟨false⟩

/-- `StitchAPI._login` (lines 105-111): POSTs the credentials to `/session`
and returns `True`.  It does not assign `self._logged_in_internal`, so the
state is returned unchanged; the `Nat` counts login POSTs performed. -/
def login_step (st : ClientState) : ClientState × Nat :=
  (st, 1)

/-- The `internal_login_required` decorator (lines 23-31): if the flag is
not set, call `_login`; the wrapped call itself performs no login POST. -/
def internal_call (st : ClientState) : ClientState × Nat :=
  if st.logged_in_internal then
    (st, 0)
  else
    login_step st

/-- `n` sequential internal-API facade calls on one client, returning the
final state and the total number of internal login POSTs performed. -/
def run_internal_calls : Nat → ClientState → ClientState × Nat
  | 0, st => (st, 0)
  | Nat.succ n, st =>
      let first := internal_call st
      let rest := run_internal_calls n first.1
      (rest.1, first.2 + rest.2)

/-- A record of the remote source listing: the fields `get_source_from_name`
and `list_sources` inspect (`id`, `name`, `deleted_at`). -/
structure SourceRec where
  id : Int
  name : String
  deleted_at : Option String
deriving DecidableEq, Repr

/-- Python truthiness of a `deleted_at` field: `not x['deleted_at']` holds
for `None` and for an empty string. -/
def pyFalsyDeletedAt (v : Option String) : Bool :=
  match v with
  | Option.none => true
  | Option.some s => decide (s = "")

/-- `StitchAPI.list_sources` (lines 127-133): fetch the full listing and,
unless `include_deleted`, drop records with a truthy `deleted_at`
client-side.  The backing listing is passed in place of the HTTP fetch. -/
def list_sources (include_deleted : Bool) (listing : List SourceRec) :
    List SourceRec :=
  if include_deleted then
    listing
  else
    listing.filter (fun r => pyFalsyDeletedAt r.deleted_at)

/-- `StitchAPI.get_source_from_name` (lines 135-141): assert the name is
truthy, filter the non-deleted listing by exact name equality, raise
`ValueError` when nothing matches, return the first match otherwise. -/
def get_source_from_name (listing : List SourceRec) (source_name : String) :
    Except PyError SourceRec :=
  if source_name = "" then
    Except.error PyError.assertionError
  else
    match (list_sources false listing).filter
        (fun r => r.name = source_name) with
    | [] => Except.error (PyError.notFound source_name)
    | r :: _ => Except.ok r

/-- `source_name, stream_name = entry.split(".") + [None]`
(stitch_api.py line 94): the split pieces followed by `None`; unpacking
into two variables succeeds only when that list has exactly two elements,
i.e. when the entry contains no `.`, and otherwise raises
`ValueError: too many values to unpack`. -/
def parse_entry (entry : String) :
    Except PyError (String × Option String) :=
  match (pySplit entry '.').map Option.some ++ [Option.none] with
  | [Option.some a, b] => Except.ok (a, b)
  | _ => Except.error PyError.valueErrorUnpack

/-- One iteration of the loop in `_parse_blacklist_config` (lines 93-100):
parse the entry, resolve the source name; if `stream_name` is truthy the
code evaluates `self.get_stream_from_name(stream_name)`, a call missing
its required `stream_name` positional argument, which raises `TypeError`
before anything is appended to `stream_entries`; otherwise the source id
is appended to `source_entries`. -/
def parse_blacklist_entry (listing : List SourceRec)
    (acc : List Int × List (Int × List Int)) (entry : String) :
    Except PyError (List Int × List (Int × List Int)) := do
  let parsed ← parse_entry entry
  let src ← get_source_from_name listing parsed.1
  if pyTruthyStrOpt parsed.2 then
    Except.error PyError.typeError
  else
    Except.ok (acc.1 ++ [src.id], acc.2)

/-- `StitchAPI._parse_blacklist_config` (lines 86-103): a falsy config
string leaves `write_blacklist = None`; otherwise split on commas, process
every entry, and install a `WriteBlacklist` when either accumulator is
non-empty. -/
def parse_blacklist_config (listing : List SourceRec)
    (config_string : Option String) :
    Except PyError (Option WriteBlacklist) :=
  match config_string with
  | Option.none => Except.ok Option.none
  | Option.some cfg =>
      if cfg = "" then
        Except.ok Option.none
      else do
        let acc ← (pySplit cfg ',').foldlM (parse_blacklist_entry listing)
          ([], [])
        if acc.2 = [] ∧ acc.1 = [] then
          Except.ok Option.none
        else
          Except.ok (Option.some (WriteBlacklist.mk acc.1 acc.2))

/-- `api.public._encode_values`: the string `'null'` becomes `None`,
everything else passes through. -/
def encode_values (v : PyVal) : PyVal :=
  if v = PyVal.vstr "null" then PyVal.vnone else v

/-- `api.public.create_filtered_payload`: keep the pairs whose value is not
`None` and whose key is not `'cls'`, encoding each kept value. -/
def create_filtered_payload (d : List (String × PyVal)) :
    List (String × PyVal) :=
  (d.filter (fun kv =>
      decide (kv.2 ≠ PyVal.vnone) && decide (kv.1 ≠ "cls"))).map
    (fun kv => (kv.1, encode_values kv.2))

/-- `api.public.Source.update` (lines 34-40): assert the id is truthy,
filter the payload, and build a PUT descriptor for `/v4/sources/{id}`. -/
def Source_update (source_id : Int) (payload : List (String × PyVal)) :
    Except PyError SendRequest :=
  if source_id = 0 then
    Except.error PyError.assertionError
  else
    Except.ok (SendRequest.mk (s!"/v4/sources/{source_id}") "put"
      (Option.some (create_filtered_payload payload)))

/-- `api.public.Source.unpause` (lines 50-56): assert the id is truthy and
update with the payload `{'paused_at': 'null'}`, the unpause sentinel. -/
def Source_unpause (source_id : Int) : Except PyError SendRequest :=
  if source_id = 0 then
    Except.error PyError.assertionError
  else
    Source_update source_id [("paused_at", PyVal.vstr "null")]

/-- The nested `{"properties": {...}}` object built by
`set_replication_schedule`: `cron_expression` is absent (`Option.none`),
an explicit JSON null (`Option.some Option.none`) or a string;
`frequency_in_minutes` is absent or the `str()` of the argument. -/
structure ScheduleProperties where
  cron_expression : Option (Option String)
  frequency_in_minutes : Option String
deriving DecidableEq, Repr

/-- `StitchAPI.set_replication_schedule` (lines 221-242):
`assert(all([cron_expression or frequency_in_minutes,
not(cron_expression and frequency_in_minutes)]))` under Python truthiness,
then build the properties payload, resolve the source name and dispatch an
update; the result is the source id and payload the update is built from. -/
def set_replication_schedule (listing : List SourceRec)
    (source_name : String) (cron_expression : Option String)
    (frequency_in_minutes : Option Int) :
    Except PyError (Int × ScheduleProperties) :=
  if ¬((pyTruthyStrOpt cron_expression || pyTruthyIntOpt frequency_in_minutes)
      && !(pyTruthyStrOpt cron_expression
            && pyTruthyIntOpt frequency_in_minutes)) then
    Except.error PyError.assertionError
  else
    let data : ScheduleProperties :=
      if pyTruthyStrOpt cron_expression then
        ScheduleProperties.mk
          (Option.some (Option.some (cron_expression.getD ""))) Option.none
      else
        ScheduleProperties.mk (Option.some Option.none)
          (Option.some (toString (frequency_in_minutes.getD 0)))
    match get_source_from_name listing source_name with
    | Except.error e => Except.error e
    | Except.ok src => Except.ok (src.id, data)

/-- One day of `timedelta(days=1)`, in minutes. -/
def dayMinutes : Int := 1440

/-- `StitchAPI.adjust_date` (lines 254-260): clip a datetime to no earlier
than `now - timedelta(days=MAX_REPORT_DAYS)`.  `now` and the horizon
length are parameters (the constant `MAX_REPORT_DAYS` lives in the
repository's `constants` module). -/
def adjust_date (now maxReportDays raw : Int) : Int :=
  let earliest := now - maxReportDays * dayMinutes
  if raw < earliest then earliest else raw

/-- `date_list = [start + timedelta(days=x) for x in range(delta.days + 1)]`
(line 268), where `delta.days` is floor division of the difference by one
day. -/
def date_list (s e : Int) : List Int :=
  (List.range (((e - s) / dayMinutes) + 1).toNat).map
    (fun (k : Nat) => s + (k : Int) * dayMinutes)

/-- Lines 269-272 of `get_multi_day_reports`: append `end_datetime` when it
lies past the last boundary, otherwise overwrite the last boundary with it;
`Option.none` models the `IndexError` on `date_list[-1]` when the list is
empty. -/
def chunk_boundaries (s e : Int) : Option (List Int) :=
  let dl := date_list s e
  match dl.getLast? with
  | Option.none => Option.none
  | Option.some last =>
      if last < e then
        Option.some (dl ++ [e])
      else
        Option.some (dl.dropLast ++ [e])

/-- The `[start, end)` sub-ranges requested by the loop
`for start, end in zip(date_list, date_list[1:])` (line 274), in issue
order. -/
def report_ranges (s e : Int) : Option (List (Int × Int)) :=
  (chunk_boundaries s e).map (fun bs => bs.zip bs.tail)

/-- `StitchAPI.get_multi_day_reports` (lines 262-279): one `get_loads`
request per sub-range, extending `reports` with each response's batch
list.  `fetch a b` stands for the batches returned by the load-report
request for `[a, b)`. -/
def get_multi_day_reports {α : Type} (fetch : Int → Int → List α)
    (s e : Int) : Option (List α) :=
  (report_ranges s e).map
    (fun rs => (rs.map (fun p => fetch p.1 p.2)).flatten)

/-- `StitchAPI.get_stream_load_reports` (lines 281-296): clip both bounds
with `adjust_date`, then either chunk by day when the clipped difference
spans at least one whole day, or issue a single request. -/
def get_stream_load_reports {α : Type} (now maxReportDays : Int)
    (fetch : Int → Int → List α) (s e : Int) : Option (List α) :=
  let s2 := adjust_date now maxReportDays s
  let e2 := adjust_date now maxReportDays e
  if 0 < (e2 - s2) / dayMinutes then
    get_multi_day_reports fetch s2 e2
  else
    Option.some (fetch s2 e2)

/-- The sub-ranges `get_stream_load_reports` requests, in issue order. -/
def stream_report_ranges (now maxReportDays s e : Int) :
    Option (List (Int × Int)) :=
  let s2 := adjust_date now maxReportDays s
  let e2 := adjust_date now maxReportDays e
  if 0 < (e2 - s2) / dayMinutes then
    report_ranges s2 e2
  else
    Option.some [(s2, e2)]

/-- The classmethods of the combined `api.Source` class
(`api/__init__.py`: `PublicSource` plus `PrivateSource`), by name. -/
def api_Source_attrs : List String :=
  ["create", "update", "pause", "unpause", "list", "delete", "get",
   "reset", "daily_report"]

/-- The methods `BaseStitchApi` (`api/common.py`) provides for building
descriptors: only `send_request` exists. -/
def base_api_lookup (attr : String) :
    Option (String → String → Option (List (String × PyVal)) → SendRequest) :=
  if attr = "send_request" then
    Option.some (fun endpoint method payload =>
      SendRequest.mk endpoint method payload)
  else
    Option.none

/-- `api.public.ReplicationJob.start` (lines 101-104): assert the id is
truthy, then `cls.send_request('/v4/sources/{id}/sync', method='post')`. -/
def ReplicationJob_start (source_id : Int) : Except PyError SendRequest :=
  if source_id = 0 then
    Except.error PyError.assertionError
  else
    match base_api_lookup "send_request" with
    | Option.some f =>
        Except.ok (f (s!"/v4/sources/{source_id}/sync") "post" Option.none)
    | Option.none => Except.error PyError.attributeError

/-- `api.public.ReplicationJob.stop` (lines 106-109): assert the id is
truthy, then evaluate `cls.send_requests(...)` — an attribute that exists
nowhere in the class hierarchy. -/
def ReplicationJob_stop (source_id : Int) : Except PyError SendRequest :=
  if source_id = 0 then
    Except.error PyError.assertionError
  else
    match base_api_lookup "send_requests" with
    | Option.some f =>
        Except.ok (f (s!"/v4/sources/{source_id}/sync") "delete" Option.none)
    | Option.none => Except.error PyError.attributeError

/-- `StitchAPI.get_extractions` (lines 335-355) dispatches
`api.Source.get_extraction_data`; the attribute access itself fails when
the name is absent from the combined `api.Source` class. -/
def get_extractions_dispatch : Except PyError Unit :=
  if "get_extraction_data" ∈ api_Source_attrs then
    Except.ok ()
  else
    Except.error PyError.attributeError

/-! ## Helper lemmas -/

/-- If a stream id occurs in no source's entry list, the defaultdict lookup
never contains it. -/
theorem not_mem_lookupDefault {m : List (Int × List Int)} {s t : Int}
    (h : ∀ p ∈ m, t ∉ p.2) : t ∉ lookupDefault m s := by
  unfold lookupDefault
  cases hf : m.find? (fun p => p.1 = s) with
  | none => simp
  | some p => exact h p (List.mem_of_find?_eq_some hf)

/-- A concrete builder standing for any request-descriptor builder. -/
def demo_call : Int → Int → SendRequest :=
  fun a _ => SendRequest.mk (s!"/v4/sources/{a}") "put" Option.none

/-! ## Claims -/

/-- Claim C1: with a blacklist configured, a mutating (non read-only)
dispatch fails with the Blacklisted error and sends nothing when the
sourceId is a blacklisted source entry; when neither the sourceId nor the
streamId matches any blacklist entry the check passes and the built
request is dispatched; and a read-only dispatch never consults the
blacklist (its result does not depend on the configured blacklist). -/
theorem blacklist_dispatch_spec (bl : WriteBlacklist) (s t : Int)
    (call : Int → Int → SendRequest) :
    (s ∈ bl.source_entries →
      execute_request (Option.some bl) false s t call =
        Except.error (PyError.sourceBlacklisted s)) ∧
    (s ∉ bl.source_entries → (∀ p ∈ bl.stream_entries, t ∉ p.2) →
      execute_request (Option.some bl) false s t call =
        Except.ok (call s t)) ∧
    (∀ bl' : Option WriteBlacklist,
      execute_request (Option.some bl) true s t call =
        execute_request bl' true s t call) := by
  refine ⟨?_, ?_, ?_⟩
  · intro hs
    simp [execute_request, verify_request, hs]
  · intro hs hstr
    have ht := not_mem_lookupDefault (s := s) hstr
    by_cases h2 : memKeys bl.stream_entries t <;>
      simp [execute_request, verify_request, hs, h2, ht]
  · intro bl'
    cases bl' <;> simp [execute_request]

/-- Witness for C1 at a concrete blacklist: source 3 is rejected, and the
pair (2, 9), matching no entry, is dispatched. -/
theorem blacklist_dispatch_spec_witness :
    execute_request (Option.some (WriteBlacklist.mk [3] [(1, [5])])) false 3 9
        demo_call = Except.error (PyError.sourceBlacklisted 3) ∧
    execute_request (Option.some (WriteBlacklist.mk [3] [(1, [5])])) false 2 9
        demo_call = Except.ok (demo_call 2 9) :=
  ⟨(blacklist_dispatch_spec (WriteBlacklist.mk [3] [(1, [5])]) 3 9
      demo_call).1 (by decide),
   (blacklist_dispatch_spec (WriteBlacklist.mk [3] [(1, [5])]) 2 9
      demo_call).2.1 (by decide) (by decide)⟩

/-- Claim C2, counterexample: stream 5 is blacklisted under source 1, yet
`verify_request 1 5` accepts — the outer check tests the stream id against
the dict's keys (source ids), so the claimed rejection does not happen. -/
theorem stream_blacklist_not_broad_cex :
    verify_request (WriteBlacklist.mk [] [(1, [5])]) 1 5 = Except.ok () ∧
    verify_request (WriteBlacklist.mk [] [(1, [5])]) 1 5 ≠
      Except.error (PyError.streamBlacklisted 5 1) := by
  exact ⟨by decide, by decide⟩

/-- Claim C2, amended: `verify_request` rejects exactly when the sourceId is
source-blacklisted, or when the streamId is a KEY of `stream_entries`
(i.e. coincides with some source id that has stream entries) and also
occurs in the entry list stored under the given sourceId. -/
theorem stream_blacklist_scoped_key_check (bl : WriteBlacklist)
    (s t : Int) :
    (∃ e, verify_request bl s t = Except.error e) ↔
      s ∈ bl.source_entries ∨
        (memKeys bl.stream_entries t = true ∧
          t ∈ lookupDefault bl.stream_entries s) := by
  unfold verify_request
  by_cases h1 : s ∈ bl.source_entries
  · simp [h1]
  · by_cases h2 : memKeys bl.stream_entries t
    · by_cases h3 : t ∈ lookupDefault bl.stream_entries s <;>
        simp [h1, h2, h3]
    · simp [h1, h2]

/-- Claim C3 (code bug): the logged-in flag starts false and is never
assigned afterwards — `_login` does not set it — so all of `n` sequential
internal-API calls perform the internal login POST: the total login count
is `n` (not at most one) and the final state still has the flag false. -/
theorem internal_login_never_latched (n : Nat) :
    run_internal_calls n initial_client_state = (initial_client_state, n) := by
  induction n with
  | zero => rfl
  | succ k ih =>
      have h1 : internal_call initial_client_state =
          (initial_client_state, 1) := rfl
      simp only [run_internal_calls, h1, ih]
      rw [Nat.add_comm]

/-- Claim C10 (code bug): `ReplicationJob.stop` evaluates the nonexistent
attribute `send_requests` and so raises instead of returning a descriptor,
and `get_extractions` dispatches `api.Source.get_extraction_data`, an
attribute the combined `api.Source` class does not have; `start` does
return its descriptor. -/
theorem missing_builders_bug :
    ReplicationJob_stop 1 = Except.error PyError.attributeError ∧
    get_extractions_dispatch = Except.error PyError.attributeError ∧
    ReplicationJob_start 1 =
      Except.ok (SendRequest.mk "/v4/sources/1/sync" "post" Option.none) := by
  exact ⟨by decide, by decide, by decide⟩

/-- In a mapping with no duplicate keys (a Python dict), a key determines
its value. -/
theorem nodup_keys_value_eq {d : List (String × PyVal)}
    (h : (d.map Prod.fst).Nodup) {k : String} {a b : PyVal}
    (ha : (k, a) ∈ d) (hb : (k, b) ∈ d) : a = b := by
  induction d with
  | nil => cases ha
  | cons p rest ih =>
      simp only [List.map_cons, List.nodup_cons] at h
      rcases List.mem_cons.mp ha with ha1 | ha1 <;>
        rcases List.mem_cons.mp hb with hb1 | hb1
      · exact congrArg Prod.snd (ha1.trans hb1.symm)
      · exfalso
        have hkp : p.1 = k := (congrArg Prod.fst ha1).symm
        have hkm : k ∈ rest.map Prod.fst :=
          List.mem_map_of_mem Prod.fst hb1
        rw [hkp] at h
        exact h.1 hkm
      · exfalso
        have hkp : p.1 = k := (congrArg Prod.fst hb1).symm
        have hkm : k ∈ rest.map Prod.fst :=
          List.mem_map_of_mem Prod.fst ha1
        rw [hkp] at h
        exact h.1 hkm
      · exact ih h.2 ha1 hb1

/-- Claim C5, counterexample: a non-null, non-sentinel pair whose key is
`'cls'` does not pass through — `create_filtered_payload` drops it. -/
theorem filtered_payload_cls_cex :
    create_filtered_payload [("cls", PyVal.vint 1)] = [] ∧
    create_filtered_payload [("cls", PyVal.vint 1)] ≠
      [("cls", PyVal.vint 1)] := by
  exact ⟨by decide, by decide⟩

/-- Claim C5, amended: in a duplicate-free payload mapping, a null-valued
key (other than the unpause sentinel) is excluded entirely, a key named
`'cls'` is excluded as well, a sentinel-valued key is preserved with an
explicit null, and every other pair passes through unchanged. -/
theorem filtered_payload_spec (d : List (String × PyVal))
    (hnodup : (d.map Prod.fst).Nodup) (k : String) (v : PyVal)
    (hmem : (k, v) ∈ d) :
    (v = PyVal.vnone → ∀ v', (k, v') ∉ create_filtered_payload d) ∧
    (k = "cls" → ∀ v', (k, v') ∉ create_filtered_payload d) ∧
    (v = PyVal.vstr "null" → k ≠ "cls" →
      (k, PyVal.vnone) ∈ create_filtered_payload d) ∧
    (v ≠ PyVal.vnone → v ≠ PyVal.vstr "null" → k ≠ "cls" →
      (k, v) ∈ create_filtered_payload d) := by
  refine ⟨?_, ?_, ?_, ?_⟩
  · intro hv v' hmem'
    rcases List.mem_map.mp hmem' with ⟨kv, hfil, heq⟩
    rcases List.mem_filter.mp hfil with ⟨hd, hcond⟩
    have hk : kv.1 = k := congrArg Prod.fst heq
    have hval : kv.2 = v := by
      refine nodup_keys_value_eq hnodup ?_ hmem
      rw [← hk]
      exact hd
    simp only [Bool.and_eq_true, decide_eq_true_eq] at hcond
    exact hcond.1 (hval.trans hv)
  · intro hk0 v' hmem'
    rcases List.mem_map.mp hmem' with ⟨kv, hfil, heq⟩
    rcases List.mem_filter.mp hfil with ⟨hd, hcond⟩
    have hk : kv.1 = k := congrArg Prod.fst heq
    simp only [Bool.and_eq_true, decide_eq_true_eq] at hcond
    exact hcond.2 (hk.trans hk0)
  · intro hv hk
    refine List.mem_map.mpr ⟨(k, v), List.mem_filter.mpr ⟨hmem, ?_⟩, ?_⟩
    · simp only [Bool.and_eq_true, decide_eq_true_eq]
      exact ⟨by rw [hv]; exact fun hc => PyVal.noConfusion hc, hk⟩
    · simp [encode_values, hv]
  · intro hv1 hv2 hk
    refine List.mem_map.mpr ⟨(k, v), List.mem_filter.mpr ⟨hmem, ?_⟩, ?_⟩
    · simp only [Bool.and_eq_true, decide_eq_true_eq]
      exact ⟨hv1, hk⟩
    · simp [encode_values, hv2]

/-- A concrete payload mapping exercising all three filtering behaviors. -/
def demo_payload : List (String × PyVal) :=
  [("a", PyVal.vnone), ("paused_at", PyVal.vstr "null"), ("c", PyVal.vint 7)]

/-- Witness for amended C5 on `demo_payload`: the null-valued key `a` is
gone, the sentinel-valued key `paused_at` survives as an explicit null,
and the ordinary pair `(c, 7)` passes through. -/
theorem filtered_payload_spec_witness :
    (∀ v', ("a", v') ∉ create_filtered_payload demo_payload) ∧
    ("paused_at", PyVal.vnone) ∈ create_filtered_payload demo_payload ∧
    ("c", PyVal.vint 7) ∈ create_filtered_payload demo_payload :=
  ⟨(filtered_payload_spec demo_payload (by decide) "a" PyVal.vnone
      (by decide)).1 rfl,
   (filtered_payload_spec demo_payload (by decide) "paused_at"
      (PyVal.vstr "null") (by decide)).2.2.1 rfl (by decide),
   (filtered_payload_spec demo_payload (by decide) "c" (PyVal.vint 7)
      (by decide)).2.2.2 (by decide) (by decide) (by decide)⟩

/-- A successful `parse_blacklist_entry` step never touches the
`stream_entries` accumulator. -/
theorem parse_blacklist_entry_snd {listing : List SourceRec}
    {acc acc' : List Int × List (Int × List Int)} {entry : String}
    (h : parse_blacklist_entry listing acc entry = Except.ok acc') :
    acc'.2 = acc.2 := by
  unfold parse_blacklist_entry at h
  cases hp : parse_entry entry with
  | error e =>
      rw [hp] at h
      simp only [Bind.bind, Except.bind] at h
      exact Except.noConfusion h
  | ok pr =>
      rw [hp] at h
      simp only [Bind.bind, Except.bind] at h
      cases hs : get_source_from_name listing pr.1 with
      | error e =>
          rw [hs] at h
          exact Except.noConfusion h
      | ok src =>
          rw [hs] at h
          cases ht : pyTruthyStrOpt pr.2 <;> simp [ht] at h
          rw [← h]

/-- Folding the blacklist entries preserves the `stream_entries`
accumulator: no iteration can ever add a stream entry. -/
theorem parse_entries_fold_snd (listing : List SourceRec) :
    ∀ (entries : List String) (acc res : List Int × List (Int × List Int)),
      entries.foldlM (parse_blacklist_entry listing) acc = Except.ok res →
      res.2 = acc.2 := by
  intro entries
  induction entries with
  | nil =>
      intro acc res h
      simp only [List.foldlM_nil] at h
      cases Except.ok.inj h
      rfl
  | cons a l ih =>
      intro acc res h
      rw [List.foldlM_cons] at h
      cases hstep : parse_blacklist_entry listing acc a with
      | error e =>
          rw [hstep] at h
          simp only [Bind.bind, Except.bind] at h
          exact Except.noConfusion h
      | ok acc' =>
          rw [hstep] at h
          simp only [Bind.bind, Except.bind] at h
          exact (ih acc' res h).trans (parse_blacklist_entry_snd hstep)

/-- Claim C4 (code bug): a config entry of the `sourceName.streamName` form
makes construction raise `ValueError: too many values to unpack`
(`entry.split('.') + [None]` has three elements), so no stream entry can
ever be parsed: any successfully constructed blacklist has empty
`stream_entries`. -/
theorem blacklist_config_stream_entries_bug :
    (∀ listing : List SourceRec,
      parse_blacklist_config listing (Option.some "alpha.orders") =
        Except.error PyError.valueErrorUnpack) ∧
    (∀ (listing : List SourceRec) (cfg : String) (bl : WriteBlacklist),
      parse_blacklist_config listing (Option.some cfg) =
        Except.ok (Option.some bl) → bl.stream_entries = []) := by
  constructor
  · intro listing
    have hsplit : pySplit "alpha.orders" ',' = ["alpha.orders"] := by decide
    have hp : parse_entry "alpha.orders" =
        Except.error PyError.valueErrorUnpack := by decide
    have hne : ¬("alpha.orders" = "") := by decide
    simp [parse_blacklist_config, hne, hsplit, List.foldlM_cons,
      parse_blacklist_entry, hp, Bind.bind, Except.bind]
  · intro listing cfg bl h
    by_cases hcfg : cfg = ""
    · rw [hcfg] at h
      simp [parse_blacklist_config] at h
    · simp only [parse_blacklist_config, if_neg hcfg, Bind.bind,
        Except.bind] at h
      cases hf : (pySplit cfg ',').foldlM (parse_blacklist_entry listing)
          ([], []) with
      | error e =>
          rw [hf] at h
          exact Except.noConfusion h
      | ok acc =>
          rw [hf] at h
          dsimp only at h
          have hsnd : acc.2 = [] :=
            parse_entries_fold_snd listing (pySplit cfg ',') ([], []) acc hf
          by_cases hone : acc.2 = [] ∧ acc.1 = []
          · rw [if_pos hone] at h
            simp at h
          · rw [if_neg hone] at h
            have h2 := Except.ok.inj h
            have h3 := Option.some.inj h2
            rw [← h3]
            exact hsnd

/-- Witness for C4: on a listing with source `alpha` of id 1, the dotted
config crashes, while the undotted config `alpha` builds a blacklist whose
`stream_entries` are (necessarily) empty. -/
theorem blacklist_config_stream_entries_bug_witness :
    parse_blacklist_config [SourceRec.mk 1 "alpha" Option.none]
        (Option.some "alpha.orders") =
      Except.error PyError.valueErrorUnpack ∧
    (WriteBlacklist.mk [1] []).stream_entries = [] :=
  ⟨blacklist_config_stream_entries_bug.1 [SourceRec.mk 1 "alpha" Option.none],
   blacklist_config_stream_entries_bug.2 [SourceRec.mk 1 "alpha" Option.none]
     "alpha" (WriteBlacklist.mk [1] []) (by decide)⟩

/-- Claim C9, counterexample: both arguments are supplied non-null
(`cron = '0 * * * *'`, `frequency = 0`), yet the call proceeds and
dispatches the cron update — `0` is falsy, so
`not(cron_expression and frequency_in_minutes)` still holds and the
assert passes. -/
theorem schedule_both_args_cex :
    set_replication_schedule [SourceRec.mk 1 "airflow" Option.none]
        "airflow" (Option.some "0 * * * *") (Option.some 0) =
      Except.ok (1, ScheduleProperties.mk
        (Option.some (Option.some "0 * * * *")) Option.none) ∧
    ∀ e : PyError,
      set_replication_schedule [SourceRec.mk 1 "airflow" Option.none]
        "airflow" (Option.some "0 * * * *") (Option.some 0) ≠
      Except.error e := by
  have h1 : set_replication_schedule [SourceRec.mk 1 "airflow" Option.none]
      "airflow" (Option.some "0 * * * *") (Option.some 0) =
      Except.ok (1, ScheduleProperties.mk
        (Option.some (Option.some "0 * * * *")) Option.none) := by decide
  refine ⟨h1, fun e h => ?_⟩
  rw [h1] at h
  exact Except.noConfusion h

/-- Claim C9, amended: the assert gates on Python truthiness, not nullness:
the call fails with the assertion error exactly when both arguments are
truthy or neither is (an empty cron string or a zero minute count behaves
as absent); with exactly one truthy argument it proceeds to resolve the
source and build the update. -/
theorem schedule_exclusive_args_spec (listing : List SourceRec)
    (source_name : String) (cron : Option String) (freq : Option Int) :
    (pyTruthyStrOpt cron = true → pyTruthyIntOpt freq = true →
      set_replication_schedule listing source_name cron freq =
        Except.error PyError.assertionError) ∧
    (pyTruthyStrOpt cron = false → pyTruthyIntOpt freq = false →
      set_replication_schedule listing source_name cron freq =
        Except.error PyError.assertionError) ∧
    (pyTruthyStrOpt cron ≠ pyTruthyIntOpt freq →
      ∀ src, get_source_from_name listing source_name = Except.ok src →
        ∃ props, set_replication_schedule listing source_name cron freq =
          Except.ok (src.id, props)) := by
  refine ⟨?_, ?_, ?_⟩
  · intro h1 h2
    simp [set_replication_schedule, h1, h2]
  · intro h1 h2
    simp [set_replication_schedule, h1, h2]
  · intro hne src hsrc
    unfold set_replication_schedule
    have hcond : ((pyTruthyStrOpt cron || pyTruthyIntOpt freq) &&
        !(pyTruthyStrOpt cron && pyTruthyIntOpt freq)) = true := by
      cases hc : pyTruthyStrOpt cron <;> cases hf : pyTruthyIntOpt freq <;>
        simp_all
    rw [if_neg (not_not_intro hcond)]
    dsimp only
    rw [hsrc]
    exact ⟨_, rfl⟩

/-- Witness for amended C9: both truthy fails, neither truthy fails, and a
single cron argument proceeds against a resolvable source name. -/
theorem schedule_exclusive_args_spec_witness :
    set_replication_schedule [SourceRec.mk 1 "airflow" Option.none]
        "airflow" (Option.some "0 * * * *") (Option.some 30) =
      Except.error PyError.assertionError ∧
    set_replication_schedule [SourceRec.mk 1 "airflow" Option.none]
        "airflow" Option.none Option.none =
      Except.error PyError.assertionError ∧
    ∃ props, set_replication_schedule [SourceRec.mk 1 "airflow" Option.none]
        "airflow" (Option.some "0 * * * *") Option.none =
      Except.ok (1, props) :=
  ⟨(schedule_exclusive_args_spec [SourceRec.mk 1 "airflow" Option.none]
      "airflow" (Option.some "0 * * * *") (Option.some 30)).1
      (by decide) (by decide),
   (schedule_exclusive_args_spec [SourceRec.mk 1 "airflow" Option.none]
      "airflow" Option.none Option.none).2.1 rfl rfl,
   (schedule_exclusive_args_spec [SourceRec.mk 1 "airflow" Option.none]
      "airflow" (Option.some "0 * * * *") Option.none).2.2
      (by decide) (SourceRec.mk 1 "airflow" Option.none) (by decide)⟩

/-- Clipping is idempotent: an already-clipped datetime is unchanged. -/
theorem adjust_date_idem (now maxd t : Int) :
    adjust_date now maxd (adjust_date now maxd t) =
      adjust_date now maxd t := by
  unfold adjust_date
  dsimp only
  split_ifs with h1 h2 <;> omega

/-- Claim C7: a datetime older than `now - MAX_REPORT_DAYS` is clipped to
exactly that horizon, a datetime at or within the horizon passes through
unchanged, and `get_stream_load_reports` clips both its start and its end
bound before chunking (pre-clipping both arguments does not change it). -/
theorem report_clipping_spec (now maxd t : Int) :
    (t < now - maxd * dayMinutes →
      adjust_date now maxd t = now - maxd * dayMinutes) ∧
    (now - maxd * dayMinutes ≤ t → adjust_date now maxd t = t) ∧
    (∀ (α : Type) (fetch : Int → Int → List α) (s e : Int),
      get_stream_load_reports now maxd fetch s e =
        get_stream_load_reports now maxd fetch (adjust_date now maxd s)
          (adjust_date now maxd e)) := by
  refine ⟨?_, ?_, ?_⟩
  · intro h
    simp [adjust_date, h]
  · intro h
    have h' : ¬(t < now - maxd * dayMinutes) := not_lt.mpr h
    simp [adjust_date, h']
  · intro α fetch s e
    simp only [get_stream_load_reports, adjust_date_idem]

/-- Witness for C7: a datetime five minutes beyond the horizon is clipped
to the horizon, a recent datetime passes through. -/
theorem report_clipping_spec_witness :
    adjust_date 100000 90 (100000 - 90 * dayMinutes - 5) =
      100000 - 90 * dayMinutes ∧
    adjust_date 100000 90 99999 = 99999 :=
  ⟨(report_clipping_spec 100000 90
      (100000 - 90 * dayMinutes - 5)).1 (by decide),
   (report_clipping_spec 100000 90 99999).2.1 (by decide)⟩

/-- First-match characterization: the head of a filtered list is `r` iff
`r` sits at some index whose earlier indices all fail the predicate. -/
theorem head_filter_char {α : Type} (p : α → Bool) (l : List α) (r : α) :
    (l.filter p).head? = Option.some r ↔
      ∃ i : Nat, l[i]? = Option.some r ∧ p r = true ∧
        ∀ j, j < i → ∀ r', l[j]? = Option.some r' → p r' = false := by
  induction l with
  | nil => simp
  | cons a tl ih =>
      by_cases hp : p a = true
      · rw [List.filter_cons_of_pos hp, List.head?_cons]
        constructor
        · intro hr
          have hr' : a = r := Option.some.inj hr
          exact ⟨0, by simp [hr'], hr' ▸ hp,
            fun j hj => absurd hj (Nat.not_lt_zero j)⟩
        · rintro ⟨i, hi, hpr, hmin⟩
          cases i with
          | zero =>
              rw [List.getElem?_cons_zero] at hi
              exact hi
          | succ k =>
              have hfalse := hmin 0 (Nat.succ_pos k) a
                List.getElem?_cons_zero
              rw [hp] at hfalse
              exact absurd hfalse (by simp)
      · rw [List.filter_cons_of_neg hp, ih]
        constructor
        · rintro ⟨i, hi, hpr, hmin⟩
          refine ⟨i + 1, by simpa using hi, hpr, ?_⟩
          intro j hj r' hj'
          cases j with
          | zero =>
              rw [List.getElem?_cons_zero] at hj'
              have : a = r' := Option.some.inj hj'
              rw [← this]
              exact Bool.eq_false_iff.mpr hp
          | succ k =>
              rw [List.getElem?_cons_succ] at hj'
              exact hmin k (by omega) r' hj'
        · rintro ⟨i, hi, hpr, hmin⟩
          cases i with
          | zero =>
              rw [List.getElem?_cons_zero] at hi
              have : a = r := Option.some.inj hi
              rw [← this] at hpr
              exact absurd hpr hp
          | succ k =>
              rw [List.getElem?_cons_succ] at hi
              refine ⟨k, hi, hpr, ?_⟩
              intro j hj r' hj'
              exact hmin (j + 1) (by omega) r'
                (by rw [List.getElem?_cons_succ]; exact hj')

/-- The predicate a record must satisfy to be returned by name resolution:
exact name equality and a falsy `deleted_at`. -/
def source_matches (source_name : String) (r : SourceRec) : Bool :=
  decide (r.name = source_name) && pyFalsyDeletedAt r.deleted_at

/-- For a truthy name, `get_source_from_name` returns the head of the
listing filtered by `source_matches`, or the not-found error. -/
theorem get_source_eq_head (listing : List SourceRec)
    (source_name : String) (hne : source_name ≠ "") :
    get_source_from_name listing source_name =
      match (listing.filter (source_matches source_name)).head? with
      | Option.some r => Except.ok r
      | Option.none => Except.error (PyError.notFound source_name) := by
  unfold get_source_from_name list_sources
  rw [if_neg hne, if_neg (by simp)]
  rw [List.filter_filter]
  have hps : (fun r => decide (r.name = source_name) &&
      pyFalsyDeletedAt r.deleted_at) = source_matches source_name := by
    funext r
    rfl
  rw [hps]
  cases hl : listing.filter (source_matches source_name) with
  | nil => rfl
  | cons r rest => rfl

/-- `source_matches` unfolded to the propositional matching condition. -/
theorem source_matches_iff (source_name : String) (r : SourceRec) :
    source_matches source_name r = true ↔
      (r.name = source_name ∧ pyFalsyDeletedAt r.deleted_at = true) := by
  simp [source_matches]

/-- Claim C8, counterexample: with an empty name argument and an (empty)
listing, resolution fails with the assertion error from
`assert source_name`, not with the not-found error, although zero records
match. -/
theorem resolve_source_empty_name_cex :
    get_source_from_name [] "" = Except.error PyError.assertionError ∧
    ∀ s : String, get_source_from_name [] "" ≠
      Except.error (PyError.notFound s) := by
  refine ⟨by decide, fun s h => ?_⟩
  have h1 : get_source_from_name [] "" =
      Except.error PyError.assertionError := by decide
  rw [h1] at h
  have h2 := Except.error.inj h
  exact PyError.noConfusion h2

/-- Claim C8, amended: for every NON-EMPTY source name, resolution over the
listing (with deleted-at filtering applied client-side) fails with the
not-found error exactly when no listed record matches the name with a
falsy `deleted_at`; it returns `r` exactly when `r` is the first such
record in listing order; and when at least one record matches — several
are allowed — it succeeds. -/
theorem resolve_source_first_match_spec (listing : List SourceRec)
    (source_name : String) (hne : source_name ≠ "") :
    (get_source_from_name listing source_name =
        Except.error (PyError.notFound source_name) ↔
      ∀ r ∈ listing, ¬(r.name = source_name ∧
        pyFalsyDeletedAt r.deleted_at = true)) ∧
    (∀ r : SourceRec,
      get_source_from_name listing source_name = Except.ok r ↔
        ∃ i : Nat, listing[i]? = Option.some r ∧ r.name = source_name ∧
          pyFalsyDeletedAt r.deleted_at = true ∧
          ∀ j, j < i → ∀ r', listing[j]? = Option.some r' →
            ¬(r'.name = source_name ∧
              pyFalsyDeletedAt r'.deleted_at = true)) ∧
    ((∃ r ∈ listing, r.name = source_name ∧
        pyFalsyDeletedAt r.deleted_at = true) →
      ∃ r, get_source_from_name listing source_name = Except.ok r) := by
  have hmain := get_source_eq_head listing source_name hne
  refine ⟨?_, ?_, ?_⟩
  · rw [hmain]
    cases hl : (listing.filter (source_matches source_name)).head? with
    | none =>
        have hall := List.filter_eq_nil_iff.mp (List.head?_eq_none_iff.mp hl)
        constructor
        · intro _ r hr hc
          exact hall r hr ((source_matches_iff source_name r).mpr hc)
        · intro _
          rfl
    | some r =>
        constructor
        · intro hc
          exact absurd hc (by simp)
        · intro hall
          exfalso
          rcases (head_filter_char (source_matches source_name) listing
            r).mp hl with ⟨i, hi, hpr, _⟩
          exact hall r (List.getElem?_mem hi)
            ((source_matches_iff source_name r).mp hpr)
  · intro r
    rw [hmain]
    constructor
    · intro h
      cases hl : (listing.filter (source_matches source_name)).head? with
      | none =>
          rw [hl] at h
          exact absurd h (by simp)
      | some r' =>
          rw [hl] at h
          have hrr : r' = r := Except.ok.inj h
          rw [hrr] at hl
          rcases (head_filter_char (source_matches source_name) listing
            r).mp hl with ⟨i, hi, hpr, hmin⟩
          rcases (source_matches_iff source_name r).mp hpr with ⟨h1, h2⟩
          refine ⟨i, hi, h1, h2, ?_⟩
          intro j hj r' hj' hc
          have := hmin j hj r' hj'
          rw [(source_matches_iff source_name r').mpr hc] at this
          exact Bool.noConfusion this
    · rintro ⟨i, hi, hname, hfal, hmin⟩
      have hhead : (listing.filter (source_matches source_name)).head? =
          Option.some r := by
        refine (head_filter_char (source_matches source_name) listing
          r).mpr ⟨i, hi, (source_matches_iff source_name r).mpr
            ⟨hname, hfal⟩, ?_⟩
        intro j hj r' hj'
        exact Bool.eq_false_iff.mpr (fun hc =>
          hmin j hj r' hj' ((source_matches_iff source_name r').mp hc))
      rw [hhead]
  · rintro ⟨r, hr, hname, hfal⟩
    rw [hmain]
    cases hl : (listing.filter (source_matches source_name)).head? with
    | none =>
        exfalso
        have hall := List.filter_eq_nil_iff.mp (List.head?_eq_none_iff.mp hl)
        exact hall r hr ((source_matches_iff source_name r).mpr
          ⟨hname, hfal⟩)
    | some r' =>
        exact ⟨r', rfl⟩

/-- A listing with a deleted record and duplicate names for witnessing C8:
resolution of `foo` skips the case-mismatched and deleted records and
succeeds on the first live match, id 2; an absent name is not found. -/
def demo_listing : List SourceRec :=
  [SourceRec.mk 1 "Foo" Option.none,
   SourceRec.mk 3 "foo" (Option.some "2020-01-01"),
   SourceRec.mk 2 "foo" Option.none,
   SourceRec.mk 4 "foo" Option.none]

/-- Witness for amended C8 on `demo_listing`: an unknown name yields the
not-found error, and the duplicated name `foo` resolves (to some record)
without failing. -/
theorem resolve_source_first_match_spec_witness :
    get_source_from_name demo_listing "zzz" =
      Except.error (PyError.notFound "zzz") ∧
    ∃ r, get_source_from_name demo_listing "foo" = Except.ok r :=
  ⟨(resolve_source_first_match_spec demo_listing "zzz"
      (by decide)).1.mpr (by decide),
   (resolve_source_first_match_spec demo_listing "foo"
      (by decide)).2.2 (by decide)⟩


/-- The comprehension builds one boundary per day index. -/
theorem date_list_length (s e : Int) :
    (date_list s e).length = ((e - s) / dayMinutes + 1).toNat := by
  unfold date_list
  rw [List.length_map, List.length_range]

/-- Boundary `i` of the comprehension is `start` plus `i` days. -/
theorem date_list_getElem (s e : Int) (i : Nat)
    (hi : i < ((e - s) / dayMinutes + 1).toNat) :
    (date_list s e)[i]? = Option.some (s + (i : Int) * dayMinutes) := by
  unfold date_list
  rw [List.getElem?_map, List.getElem?_range hi]
  rfl

/-- The day boundaries are strictly increasing. -/
theorem date_list_chain (s e : Int) :
    List.Chain' (· < ·) (date_list s e) := by
  unfold date_list
  rw [List.chain'_map]
  generalize ((e - s) / dayMinutes + 1).toNat = m
  cases m with
  | zero => simp
  | succ k =>
      rw [List.chain'_range_succ]
      intro j hj
      simp only [dayMinutes]
      push_cast
      omega

/-- The last boundary of the comprehension is `start + delta.days` days. -/
theorem date_list_getLast (s e : Int) (h0 : 0 ≤ (e - s) / dayMinutes) :
    (date_list s e).getLast? =
      Option.some (s + ((e - s) / dayMinutes) * dayMinutes) := by
  rw [List.getLast?_eq_getElem?, date_list_length]
  have h1 : ((e - s) / dayMinutes + 1).toNat - 1 <
      ((e - s) / dayMinutes + 1).toNat := by omega
  rw [date_list_getElem s e _ h1]
  have h2 : ((((e - s) / dayMinutes + 1).toNat - 1 : Nat) : Int) =
      (e - s) / dayMinutes := by omega
  rw [h2]

/-- At least one whole day between the bounds makes `delta.days`
positive. -/
theorem ediv_day_pos {s e : Int} (h : s + dayMinutes ≤ e) :
    0 < (e - s) / dayMinutes := by
  have hday : (0 : Int) < dayMinutes := by decide
  refine lt_of_lt_of_le Int.zero_lt_one ?_
  refine (Int.le_ediv_iff_mul_le hday).mpr ?_
  simp only [dayMinutes] at h ⊢
  omega

/-- `chunk_boundaries` with its local binding unfolded. -/
theorem chunk_boundaries_eq (s e : Int) :
    chunk_boundaries s e =
      match (date_list s e).getLast? with
      | Option.none => Option.none
      | Option.some last =>
          if last < e then Option.some (date_list s e ++ [e])
          else Option.some ((date_list s e).dropLast ++ [e]) := rfl

/-- Structure of the chunk boundaries for a range of at least one whole
day: the list starts at `start`, every non-final boundary is `start + k`
days, the final boundary is exactly `end` (never rounded past it), and
the boundaries are strictly increasing. -/
theorem chunk_boundaries_spec (s e : Int) (h : s + dayMinutes ≤ e) :
    ∃ bs : List Int,
      chunk_boundaries s e = Option.some bs ∧
      2 ≤ bs.length ∧
      bs.head? = Option.some s ∧
      bs.getLast? = Option.some e ∧
      (∀ i : Nat, i + 1 < bs.length →
        bs[i]? = Option.some (s + (i : Int) * dayMinutes)) ∧
      List.Chain' (· < ·) bs := by
  have hday : (0 : Int) < dayMinutes := by decide
  have hn1 : 1 ≤ (e - s) / dayMinutes := by
    refine (Int.le_ediv_iff_mul_le hday).mpr ?_
    simp only [dayMinutes] at h ⊢
    omega
  have h0 : 0 ≤ (e - s) / dayMinutes := by omega
  have hlast := date_list_getLast s e h0
  have hlow : (e - s) / dayMinutes * dayMinutes ≤ e - s :=
    Int.ediv_mul_le (e - s) (by decide)
  have hlen := date_list_length s e
  rcases lt_or_eq_of_le (show s + (e - s) / dayMinutes * dayMinutes ≤ e by
    omega) with hlt | heq
  · refine ⟨date_list s e ++ [e], ?_, ?_, ?_, ?_, ?_, ?_⟩
    · rw [chunk_boundaries_eq, hlast]
      dsimp only
      rw [if_pos hlt]
    · rw [List.length_append, hlen]
      simp only [List.length_cons, List.length_nil]
      omega
    · rw [List.head?_eq_getElem?,
        List.getElem?_append_left (by rw [hlen]; omega),
        date_list_getElem s e 0 (by omega)]
      norm_num
    · exact List.getLast?_concat (date_list s e)
    · intro i hi
      rw [List.length_append, hlen] at hi
      simp only [List.length_cons, List.length_nil] at hi
      rw [List.getElem?_append_left (by rw [hlen]; omega)]
      exact date_list_getElem s e i (by omega)
    · rw [List.chain'_append]
      refine ⟨date_list_chain s e, List.chain'_singleton e, ?_⟩
      intro x hx y hy
      rw [hlast] at hx
      have hxv : x = s + (e - s) / dayMinutes * dayMinutes :=
        (Option.mem_some_iff.mp hx).symm
      have hyv : y = e := (Option.mem_some_iff.mp hy).symm
      rw [hxv, hyv]
      exact hlt
  · have hlast' : (date_list s e).getLast? = Option.some e := by
      rw [hlast, heq]
    have hbs : (date_list s e).dropLast ++ [e] = date_list s e :=
      List.dropLast_append_getLast? e hlast'
    refine ⟨date_list s e, ?_, ?_, ?_, ?_, ?_, ?_⟩
    · rw [chunk_boundaries_eq, hlast']
      dsimp only
      rw [if_neg (lt_irrefl e), hbs]
    · rw [hlen]
      omega
    · rw [List.head?_eq_getElem?, date_list_getElem s e 0 (by omega)]
      norm_num
    · exact hlast'
    · intro i hi
      rw [hlen] at hi
      exact date_list_getElem s e i (by omega)
    · exact date_list_chain s e

/-- A concrete fetch function recording each requested sub-range. -/
def demo_fetch : Int → Int → List (Int × Int) := fun a b => [(a, b)]

/-- Claim C6: for 2024-01-01T00:00Z to 2024-01-03T00:00Z (minutes 0 and
2880 with `now` = 2880), `get_stream_load_reports` issues exactly the two
sub-ranges [01-01, 01-02) then [01-02, 01-03) in order and concatenates
their batches in that order; in general, for a range spanning at least a
whole day within the report horizon, the boundaries are `start + k` days
with the final boundary exactly `end`, one request per consecutive pair,
issued chronologically, output concatenated in request order. -/
theorem report_chunking_spec :
    (stream_report_ranges 2880 365 0 2880 =
        Option.some [(0, 1440), (1440, 2880)] ∧
      get_stream_load_reports 2880 365 demo_fetch 0 2880 =
        Option.some [(0, 1440), (1440, 2880)]) ∧
    ∀ (α : Type) (fetch : Int → Int → List α) (now maxd s e : Int),
      now - maxd * dayMinutes ≤ s → s + dayMinutes ≤ e →
      ∃ bs : List Int,
        chunk_boundaries s e = Option.some bs ∧
        2 ≤ bs.length ∧
        bs.head? = Option.some s ∧
        bs.getLast? = Option.some e ∧
        (∀ i : Nat, i + 1 < bs.length →
          bs[i]? = Option.some (s + (i : Int) * dayMinutes)) ∧
        List.Chain' (· < ·) bs ∧
        stream_report_ranges now maxd s e = Option.some (bs.zip bs.tail) ∧
        get_stream_load_reports now maxd fetch s e =
          Option.some (((bs.zip bs.tail).map
            (fun p => fetch p.1 p.2)).flatten) := by
  constructor
  · exact ⟨by decide, by decide⟩
  · intro α fetch now maxd s e hs hse
    obtain ⟨bs, hcb, hlen2, hhead, hlast, hidx, hchain⟩ :=
      chunk_boundaries_spec s e hse
    have hse' : s ≤ e := by
      have hday : (0 : Int) < dayMinutes := by decide
      omega
    have hs2 : adjust_date now maxd s = s := by
      simp [adjust_date, not_lt.mpr hs]
    have he2 : adjust_date now maxd e = e := by
      simp [adjust_date, not_lt.mpr (le_trans hs hse')]
    have hpos := ediv_day_pos hse
    refine ⟨bs, hcb, hlen2, hhead, hlast, hidx, hchain, ?_, ?_⟩
    · simp only [stream_report_ranges, hs2, he2, if_pos hpos,
        report_ranges, hcb]
      rfl
    · simp only [get_stream_load_reports, hs2, he2, if_pos hpos,
        get_multi_day_reports, report_ranges, hcb]
      rfl

/-- Witness for C6 at the concrete two-day scenario of the claim. -/
theorem report_chunking_spec_witness :
    ∃ bs : List Int,
      chunk_boundaries 0 2880 = Option.some bs ∧
      2 ≤ bs.length ∧
      bs.head? = Option.some 0 ∧
      bs.getLast? = Option.some 2880 ∧
      (∀ i : Nat, i + 1 < bs.length →
        bs[i]? = Option.some (0 + (i : Int) * dayMinutes)) ∧
      List.Chain' (· < ·) bs ∧
      stream_report_ranges 2880 365 0 2880 = Option.some (bs.zip bs.tail) ∧
      get_stream_load_reports 2880 365 demo_fetch 0 2880 =
        Option.some (((bs.zip bs.tail).map
          (fun p => demo_fetch p.1 p.2)).flatten) :=
  report_chunking_spec.2 (Int × Int) demo_fetch 2880 365 0 2880
    (by decide) (by decide)
